import Mathlib

/-!
# Verification of the Calculator recursive-descent evaluator

Shallow embedding of `src/Calculator/main.cpp`.

Modelling choices:
* The C cursor (`const char*& eq`) walking a NUL-terminated string is modelled
  by the remaining suffix of the input as a `List Char`; end-of-input (`'\x5c0'`)
  is the empty list, and every `*eq == c` test becomes a `head?` test that is
  false at the end of input, exactly as `'\x5c0'` fails those tests in C.
* C `float`/`double` values are modelled as `ℚ` (ideal arithmetic); the
  parenthesis counter (C `int`) is modelled as `ℤ`.
* The C code signals invalid input with `assert`, which aborts the process.
  Following the spec's error taxonomy, each of those asserts is modelled as a
  typed error: `assert(*eq == ')')` in `tokenizeNumbers` becomes
  `UnbalancedParentheses`, `assert(eptr != eq)` becomes `MalformedNumber`,
  `assert(second != 0)` in `tokenizeMulDiv` becomes `DivisionByZero`, and
  `assert(pCount == 0)` in `solve` becomes `UnbalancedParentheses`.
* The three mutually recursive grammar functions (plus their two internal
  `while (true)` loops) are embedded as a single step function `run` indexed
  by a `Call` tag and a fuel counter; each C function call or loop iteration
  costs one unit of fuel.  `none` means "fuel exhausted"; the driver `solve`
  supplies a fuel budget that is ample for every input actually reached in
  the theorems below (all of which exhibit a definite `some` result).
-/

namespace Calculator

/-- The error taxonomy of the spec (§7), standing in for the C `assert`s. -/
inductive CalcError where
  | MalformedNumber
  | UnbalancedParentheses
  | DivisionByZero
deriving DecidableEq

/-- `isDigit` from main.cpp: true iff the character is between `'0'` and `'9'`. -/
def isDigit (c : Char) : Bool := '0' ≤ c && c ≤ '9'

/-- `toDigit` from main.cpp: `c - '0'` as an integer. -/
def toDigit (c : Char) : Int := (c.toNat : Int) - ('0'.toNat : Int)

/-- `isOperator` from main.cpp: membership in `+ - / *`. -/
def isOperator (c : Char) : Bool := c = '+' || c = '-' || c = '/' || c = '*'

/-- The scanning loop of `makeFloat` (main.cpp lines 116–152).  State:
remaining input, `beforeDecimal`, `afterDecimal`, `divisor`, `isFraction`.
Returns the final accumulators together with the end position (`end`). -/
def makeFloatGo : List Char → ℚ → ℚ → Int → Bool → ℚ × ℚ × Int × List Char
  | [], bd, ad, divisor, _ => (bd, ad, divisor, [])
  | c :: rest, bd, ad, divisor, isFraction =>
    if isDigit c then
      if isFraction then
        makeFloatGo rest bd (ad * 10 + (toDigit c : ℚ)) (divisor * 10) isFraction
      else
        makeFloatGo rest (bd * 10 + (toDigit c : ℚ)) ad divisor isFraction
    else if c = '.' then
      if isFraction then (bd, ad, divisor, c :: rest)
      else makeFloatGo rest bd ad divisor true
    else (bd, ad, divisor, c :: rest)

/-- Assembling `makeFloat`'s return value: `sign * (beforeDecimal + afterDecimal / divisor)`
together with the end position. -/
def makeFloatSigned (sign : ℚ) (eq : List Char) : ℚ × List Char :=
  let r := makeFloatGo eq 0 0 1 false
  (sign * (r.1 + r.2.1 / (r.2.2.1 : ℚ)), r.2.2.2)

/-- `makeFloat` from main.cpp: an optional leading `-` sets the sign, then the
digit/decimal-point scanning loop runs; returns the value and the end position. -/
def makeFloat (eq : List Char) : ℚ × List Char :=
  if eq.head? = some '-' then makeFloatSigned (-1) eq.tail else makeFloatSigned 1 eq

/-- The `while (*eq == ' ') eq++;` space-skipping loops of main.cpp. -/
def skipSpaces : List Char → List Char
  | [] => []
  | c :: rest => if c = ' ' then skipSpaces rest else c :: rest

instance {ε α : Type} [DecidableEq ε] [DecidableEq α] : DecidableEq (Except ε α) := fun x y =>
  match x, y with
  | .ok a, .ok b =>
    if h : a = b then isTrue (by rw [h]) else isFalse (fun hh => by cases hh; exact h rfl)
  | .error a, .error b =>
    if h : a = b then isTrue (by rw [h]) else isFalse (fun hh => by cases hh; exact h rfl)
  | .ok _, .error _ => isFalse (fun hh => by cases hh)
  | .error _, .ok _ => isFalse (fun hh => by cases hh)

/-- Result of a grammar-level call: an error, or (value, new cursor, new paren count). -/
abbrev Result := Except CalcError (ℚ × List Char × Int)

/-- Tags for the three mutually recursive grammar functions of main.cpp and the
two `while (true)` loops inside `tokenizeMulDiv` and `tokenizeExpression`
(the loop tags carry the running accumulator `first`). -/
inductive Call where
  | numbers
  | mulDiv
  | mulDivLoop (first : ℚ)
  | expr
  | exprLoop (first : ℚ)

/-- The fused embedding of `tokenizeNumbers`, `tokenizeMulDiv` and
`tokenizeExpression` (main.cpp lines 172–317).  Each branch is a direct
transcription of the corresponding C function body; `none` means the fuel
ran out before the computation finished. -/
def run : Nat → Call → List Char → Int → Option Result
  | 0, _, _, _ => none
  | fuel+1, .numbers, eq0, d =>
    -- tokenizeNumbers: skip spaces, note a unary minus, then either a
    -- parenthesized sub-expression or a numeric literal via makeFloat.
    let eq1 := skipSpaces eq0
    let p : Bool × List Char :=
      if eq1.head? = some '-' then (true, eq1.tail) else (false, eq1)
    if p.2.head? = some '(' then
      match run fuel .expr p.2.tail (d + 1) with
      | none => none
      | some (.error e) => some (.error e)
      | some (.ok (v, eq3, d3)) =>
        if eq3.head? = some ')' then
          some (.ok (cond p.1 (v * (-1)) v, eq3.tail, d3 - 1))
        else some (.error .UnbalancedParentheses)
    else
      let m := makeFloat p.2
      -- assert(eptr != eq): pointer equality is "zero characters consumed",
      -- i.e. the remaining suffix has the same length.
      if m.2.length = p.2.length then some (.error .MalformedNumber)
      else some (.ok (cond p.1 (m.1 * (-1)) m.1, m.2, d))
  | fuel+1, .mulDiv, eq0, d =>
    -- tokenizeMulDiv: one tokenizeNumbers, then the * / fold loop.
    match run fuel .numbers eq0 d with
    | none => none
    | some (.error e) => some (.error e)
    | some (.ok (first, eq1, d1)) => run fuel (.mulDivLoop first) eq1 d1
  | fuel+1, .mulDivLoop first, eq0, d =>
    let eq1 := skipSpaces eq0
    if eq1.head? = some '*' ∨ eq1.head? = some '/' then
      match run fuel .numbers eq1.tail d with
      | none => none
      | some (.error e) => some (.error e)
      | some (.ok (second, eq2, d2)) =>
        if ¬ (eq1.head? = some '/') then
          run fuel (.mulDivLoop (first * second)) eq2 d2
        else if second = 0 then some (.error .DivisionByZero)
        else run fuel (.mulDivLoop (first / second)) eq2 d2
    else some (.ok (first, eq1, d))
  | fuel+1, .expr, eq0, d =>
    -- tokenizeExpression: one tokenizeMulDiv, then the + - fold loop.
    match run fuel .mulDiv eq0 d with
    | none => none
    | some (.error e) => some (.error e)
    | some (.ok (first, eq1, d1)) => run fuel (.exprLoop first) eq1 d1
  | fuel+1, .exprLoop first, eq0, d =>
    let eq1 := skipSpaces eq0
    if eq1.head? = some '+' ∨ eq1.head? = some '-' then
      match run fuel .mulDiv eq1.tail d with
      | none => none
      | some (.error e) => some (.error e)
      | some (.ok (second, eq2, d2)) =>
        if eq1.head? = some '+' then run fuel (.exprLoop (first + second)) eq2 d2
        else run fuel (.exprLoop (first - second)) eq2 d2
    else some (.ok (first, eq1, d))

/-- `tokenizeNumbers` (the Factor level) at a given fuel. -/
def tokenizeNumbers (fuel : Nat) (eq : List Char) (d : Int) : Option Result :=
  run fuel .numbers eq d

/-- `tokenizeMulDiv` (the Term level) at a given fuel. -/
def tokenizeMulDiv (fuel : Nat) (eq : List Char) (d : Int) : Option Result :=
  run fuel .mulDiv eq d

/-- `tokenizeExpression` (the Expression level) at a given fuel. -/
def tokenizeExpression (fuel : Nat) (eq : List Char) (d : Int) : Option Result :=
  run fuel .expr eq d

/-- `solve` from main.cpp at a given fuel: fresh paren counter, one
`tokenizeExpression`, then the `assert(pCount == 0)` check. -/
def solveFuel (fuel : Nat) (eq : List Char) : Option (Except CalcError ℚ) :=
  match run fuel .expr eq 0 with
  | none => none
  | some (.error e) => some (.error e)
  | some (.ok (answer, _, pCount)) =>
    if pCount = 0 then some (.ok answer) else some (.error .UnbalancedParentheses)

/-- Fuel budget used by the driver: generous linear headroom in the input
length (each character can be consumed at most once, and the call depth
between two consumptions is bounded by the three grammar levels). -/
def fuelBound (eq : List Char) : Nat := 4 * eq.length + 16

/-- The driver `solve` on a character list. -/
def solve (eq : List Char) : Option (Except CalcError ℚ) :=
  solveFuel (fuelBound eq) eq

/-- The spec's public entry point `evaluate(text)`, on a Lean string. -/
def evaluate (s : String) : Option (Except CalcError ℚ) :=
  solve s.data

/-- True iff an evaluation outcome is a successful numeric result. -/
def isSuccess : Option (Except CalcError ℚ) → Bool
  | some (.ok _) => true
  | _ => false

/-! ## Derived notions used in the statements -/

/-- The numeric value of a digit string, folded left with accumulator `a`
(the way `makeFloat` accumulates `beforeDecimal` / `afterDecimal`). -/
def digitsValFrom (a : ℚ) (ds : List Char) : ℚ :=
  ds.foldl (fun x c => x * 10 + (toDigit c : ℚ)) a

/-- The numeric value of a digit string. -/
def digitsVal (ds : List Char) : ℚ := digitsValFrom 0 ds

/-- True iff the scanning loop of `makeFloat` would consume nothing here:
the next character (if any) is neither a digit nor a decimal point. -/
def numStop : List Char → Bool
  | [] => true
  | c :: _ => !(isDigit c || c == '.')

/-- True iff `makeFloat` consumes at least one character here: the next
character is a digit, a decimal point, or a leading minus sign. -/
def canStartNumber : List Char → Bool
  | [] => false
  | c :: _ => isDigit c || c == '.' || c == '-'

/-! ## Scanner lemmas -/

theorem skipSpaces_nil : skipSpaces [] = [] := rfl

theorem skipSpaces_cons_space (r : List Char) : skipSpaces (' ' :: r) = skipSpaces r := by
  simp [skipSpaces]

theorem skipSpaces_cons_ne {c : Char} (r : List Char) (h : c ≠ ' ') :
    skipSpaces (c :: r) = c :: r := by
  simp [skipSpaces, h]

theorem isDigit_ne {c : Char} (h : isDigit c = true) (x : Char) (hx : isDigit x = false) :
    c ≠ x := by
  intro he
  rw [he, hx] at h
  exact Bool.false_ne_true h

theorem skipSpaces_eq_self {eq : List Char} (h : eq.head? ≠ some ' ') :
    skipSpaces eq = eq := by
  cases eq with
  | nil => rfl
  | cons c r =>
    refine skipSpaces_cons_ne r ?_
    intro he
    subst he
    exact h rfl

theorem skipSpaces_digits {ds rest : List Char} (hne : ds ≠ [])
    (h : ∀ c ∈ ds, isDigit c = true) : skipSpaces (ds ++ rest) = ds ++ rest := by
  cases ds with
  | nil => exact absurd rfl hne
  | cons c r =>
    refine skipSpaces_cons_ne _ ?_
    exact isDigit_ne (h c (by simp)) ' ' (by decide)

theorem skipSpaces_digits_self {ds : List Char} (hne : ds ≠ [])
    (h : ∀ c ∈ ds, isDigit c = true) : skipSpaces ds = ds := by
  cases ds with
  | nil => rfl
  | cons c r =>
    refine skipSpaces_cons_ne _ ?_
    exact isDigit_ne (h c (by simp)) ' ' (by decide)

theorem makeFloatGo_digits (ds : List Char) (h : ∀ c ∈ ds, isDigit c = true)
    (rest : List Char) (bd ad : ℚ) (divisor : Int) :
    makeFloatGo (ds ++ rest) bd ad divisor false =
      makeFloatGo rest (digitsValFrom bd ds) ad divisor false := by
  induction ds generalizing bd with
  | nil => simp [digitsValFrom]
  | cons c r ih =>
    have hc : isDigit c = true := h c (by simp)
    have hr : ∀ x ∈ r, isDigit x = true := fun x hx => h x (by simp [hx])
    have step : makeFloatGo ((c :: r) ++ rest) bd ad divisor false =
        makeFloatGo (r ++ rest) (bd * 10 + (toDigit c : ℚ)) ad divisor false := by
      simp [makeFloatGo, hc]
    rw [step, ih hr]
    rfl

theorem makeFloatGo_digits_frac (ds : List Char) (h : ∀ c ∈ ds, isDigit c = true)
    (rest : List Char) (bd ad : ℚ) (divisor : Int) :
    makeFloatGo (ds ++ rest) bd ad divisor true =
      makeFloatGo rest bd (digitsValFrom ad ds) (divisor * 10 ^ ds.length) true := by
  induction ds generalizing ad divisor with
  | nil => simp [digitsValFrom]
  | cons c r ih =>
    have hc : isDigit c = true := h c (by simp)
    have hr : ∀ x ∈ r, isDigit x = true := fun x hx => h x (by simp [hx])
    have step : makeFloatGo ((c :: r) ++ rest) bd ad divisor true =
        makeFloatGo (r ++ rest) bd (ad * 10 + (toDigit c : ℚ)) (divisor * 10) true := by
      simp [makeFloatGo, hc]
    rw [step, ih hr]
    have h1 : digitsValFrom (ad * 10 + (toDigit c : ℚ)) r = digitsValFrom ad (c :: r) := rfl
    have h2 : divisor * 10 * 10 ^ r.length = divisor * 10 ^ (c :: r).length := by
      simp only [List.length_cons, pow_succ]
      ring
    rw [h1, h2]

theorem makeFloatGo_stop {c : Char} (rest : List Char) (bd ad : ℚ) (divisor : Int)
    (frac : Bool) (h1 : isDigit c = false) (h2 : c ≠ '.') :
    makeFloatGo (c :: rest) bd ad divisor frac = (bd, ad, divisor, c :: rest) := by
  simp [makeFloatGo, h1, h2]

theorem makeFloatGo_dot (rest : List Char) (bd ad : ℚ) (divisor : Int) :
    makeFloatGo ('.' :: rest) bd ad divisor false = makeFloatGo rest bd ad divisor true := by
  simp [makeFloatGo, isDigit]

theorem makeFloatGo_dot_frac (rest : List Char) (bd ad : ℚ) (divisor : Int) :
    makeFloatGo ('.' :: rest) bd ad divisor true = (bd, ad, divisor, '.' :: rest) := by
  simp [makeFloatGo, isDigit]

theorem makeFloat_digits {ds rest : List Char} (hne : ds ≠ [])
    (h : ∀ c ∈ ds, isDigit c = true) (hstop : numStop rest = true) :
    makeFloat (ds ++ rest) = (digitsVal ds, rest) := by
  have hhead : (ds ++ rest).head? ≠ some '-' := by
    cases ds with
    | nil => exact absurd rfl hne
    | cons c r =>
      have hc : c ≠ '-' := isDigit_ne (h c (by simp)) '-' (by decide)
      simp [hc]
  have hrest : makeFloatGo rest (digitsValFrom 0 ds) 0 1 false =
      (digitsValFrom 0 ds, 0, 1, rest) := by
    cases rest with
    | nil => rfl
    | cons c r =>
      have hc : isDigit c = false ∧ ¬ c = '.' := by
        have h2 := hstop
        simp only [numStop, Bool.not_eq_true', Bool.or_eq_false_iff,
          beq_eq_false_iff_ne, ne_eq] at h2
        exact h2
      exact makeFloatGo_stop r _ _ _ _ hc.1 hc.2
  rw [makeFloat, if_neg hhead]
  simp only [makeFloatSigned, makeFloatGo_digits ds h, hrest]
  simp [digitsVal]

theorem toDigit_nonneg {c : Char} (hc : isDigit c = true) : (0 : Int) ≤ toDigit c := by
  have h1 : '0' ≤ c ∧ c ≤ '9' := by
    simpa [isDigit, Bool.and_eq_true, decide_eq_true_eq] using hc
  have h2 : 48 ≤ c.toNat := h1.1
  have h3 : '0'.toNat = 48 := rfl
  simp only [toDigit]
  omega

theorem digitsValFrom_nonneg {ds : List Char} (h : ∀ c ∈ ds, isDigit c = true)
    {a : ℚ} (ha : 0 ≤ a) : 0 ≤ digitsValFrom a ds := by
  induction ds generalizing a with
  | nil => simpa [digitsValFrom] using ha
  | cons c r ih =>
    have hc : isDigit c = true := h c (by simp)
    have hr : ∀ x ∈ r, isDigit x = true := fun x hx => h x (by simp [hx])
    have hd : (0 : ℚ) ≤ (toDigit c : ℚ) := by
      have := toDigit_nonneg hc
      exact_mod_cast this
    have hstep : (0 : ℚ) ≤ a * 10 + (toDigit c : ℚ) := by positivity
    exact ih hr hstep

theorem makeFloatGo_length_le (eq : List Char) (bd ad : ℚ) (divisor : Int) (frac : Bool) :
    (makeFloatGo eq bd ad divisor frac).2.2.2.length ≤ eq.length := by
  induction eq generalizing bd ad divisor frac with
  | nil => simp [makeFloatGo]
  | cons c r ih =>
    simp only [makeFloatGo]
    split
    · split
      · exact (ih _ _ _ _).trans (by simp)
      · exact (ih _ _ _ _).trans (by simp)
    · split
      · split
        · simp
        · exact (ih _ _ _ _).trans (by simp)
      · simp

theorem makeFloatSigned_snd (sign : ℚ) (eq : List Char) :
    (makeFloatSigned sign eq).2 = (makeFloatGo eq 0 0 1 false).2.2.2 := rfl

theorem makeFloatSigned_eq (sign : ℚ) (eq : List Char) :
    makeFloatSigned sign eq =
      (sign * ((makeFloatGo eq 0 0 1 false).1 +
        (makeFloatGo eq 0 0 1 false).2.1 / ((makeFloatGo eq 0 0 1 false).2.2.1 : ℚ)),
       (makeFloatGo eq 0 0 1 false).2.2.2) := rfl

/-- If the next character is a digit, a dot or a minus, `makeFloat` consumes
at least one character. -/
theorem makeFloat_consumes {eq : List Char} (h : canStartNumber eq = true) :
    (makeFloat eq).2.length < eq.length := by
  cases eq with
  | nil => simp [canStartNumber] at h
  | cons c r =>
    simp only [canStartNumber, Bool.or_eq_true, beq_iff_eq] at h
    by_cases hm : c = '-'
    · subst hm
      have hd : makeFloat ('-' :: r) = makeFloatSigned (-1) r := rfl
      rw [hd, makeFloatSigned_snd, List.length_cons]
      have := makeFloatGo_length_le r 0 0 1 false
      omega
    · have hdot : isDigit c = true ∨ c = '.' := by
        rcases h with (h | h) | h
        · exact Or.inl h
        · exact Or.inr h
        · exact absurd h hm
      have hd : makeFloat (c :: r) = makeFloatSigned 1 (c :: r) := by
        rw [makeFloat, if_neg (by simp [hm])]
      rw [hd, makeFloatSigned_snd]
      rcases hdot with hdg | hdg
      · have hstep : makeFloatGo (c :: r) 0 0 1 false =
            makeFloatGo r (0 * 10 + (toDigit c : ℚ)) 0 1 false := by
          simp [makeFloatGo, hdg]
        rw [hstep, List.length_cons]
        have := makeFloatGo_length_le r (0 * 10 + (toDigit c : ℚ)) 0 1 false
        omega
      · subst hdg
        rw [makeFloatGo_dot, List.length_cons]
        have := makeFloatGo_length_le r 0 0 1 true
        omega

/-- If the next character is none of digit, dot, minus, `makeFloat` consumes
nothing: the end pointer equals the start pointer. -/
theorem makeFloat_stuck {eq : List Char} (h : canStartNumber eq = false) :
    (makeFloat eq).2 = eq := by
  cases eq with
  | nil => simp [makeFloat, makeFloatSigned, makeFloatGo]
  | cons c r =>
    simp only [canStartNumber, Bool.or_eq_false_iff, beq_eq_false_iff_ne, ne_eq] at h
    obtain ⟨⟨h1, h2⟩, h3⟩ := h
    rw [makeFloat, if_neg (by simp [h3])]
    simp only [makeFloatSigned]
    rw [makeFloatGo_stop r _ _ _ _ h1 h2]

/-- The second decimal point inside the fractional part stops the scan at
that point and returns the value accumulated so far. -/
theorem makeFloat_two_dots {ds1 ds2 : List Char} (rest : List Char)
    (h1 : ∀ c ∈ ds1, isDigit c = true) (h2 : ∀ c ∈ ds2, isDigit c = true) :
    makeFloat (ds1 ++ ('.' :: (ds2 ++ ('.' :: rest)))) =
      (digitsVal ds1 + digitsVal ds2 / (10 : ℚ) ^ ds2.length, '.' :: rest) := by
  have hhead : (ds1 ++ ('.' :: (ds2 ++ ('.' :: rest)))).head? ≠ some '-' := by
    cases ds1 with
    | nil => simp
    | cons c r =>
      have hc : c ≠ '-' := isDigit_ne (h1 c (by simp)) '-' (by decide)
      simp [hc]
  have e1 := makeFloatGo_digits ds1 h1 ('.' :: (ds2 ++ ('.' :: rest))) 0 0 1
  have e2 := makeFloatGo_dot (ds2 ++ ('.' :: rest)) (digitsValFrom 0 ds1) 0 1
  have e3 := makeFloatGo_digits_frac ds2 h2 ('.' :: rest) (digitsValFrom 0 ds1) 0 1
  have e4 := makeFloatGo_dot_frac rest (digitsValFrom 0 ds1) (digitsValFrom 0 ds2)
    (1 * 10 ^ ds2.length)
  rw [makeFloat, if_neg hhead, makeFloatSigned_eq, e1, e2, e3, e4]
  simp only [digitsVal, Prod.mk.injEq, one_mul]
  constructor
  · push_cast
    ring
  · trivial

/-! ## Parser step lemmas

Each lemma performs one step of symbolic execution of `run`, mirroring one
branch of the corresponding C function body. -/

theorem run_numbers_digits (f : Nat) {eq0 ds rest : List Char} (d : Int)
    (hsk : skipSpaces eq0 = ds ++ rest) (hne : ds ≠ [])
    (h : ∀ c ∈ ds, isDigit c = true) (hstop : numStop rest = true) :
    run (f + 1) .numbers eq0 d = some (.ok (digitsVal ds, rest, d)) := by
  obtain ⟨c, r, rfl⟩ : ∃ c r, ds = c :: r := by
    cases ds with
    | nil => exact absurd rfl hne
    | cons c r => exact ⟨c, r, rfl⟩
  have hc : isDigit c = true := h c (by simp)
  have hm : c ≠ '-' := isDigit_ne hc '-' (by decide)
  have hp : c ≠ '(' := isDigit_ne hc '(' (by decide)
  have hmf := makeFloat_digits hne h hstop
  rw [List.cons_append] at hmf
  simp only [run, hsk, List.cons_append, List.head?_cons, Option.some.injEq, hm,
    if_false, hp, hmf]
  rw [if_neg (by simp; omega)]
  simp

theorem run_numbers_paren_ok (f : Nat) {eq0 r : List Char} (d : Int)
    {v : ℚ} {eq3 : List Char} {d3 : Int}
    (hsk : skipSpaces eq0 = '(' :: r)
    (h : run f .expr r (d + 1) = some (.ok (v, eq3, d3)))
    (hc : eq3.head? = some ')') :
    run (f + 1) .numbers eq0 d = some (.ok (v, eq3.tail, d3 - 1)) := by
  simp [run, hsk, h, hc]

theorem run_numbers_paren_noclose (f : Nat) {eq0 r : List Char} (d : Int)
    {v : ℚ} {eq3 : List Char} {d3 : Int}
    (hsk : skipSpaces eq0 = '(' :: r)
    (h : run f .expr r (d + 1) = some (.ok (v, eq3, d3)))
    (hc : eq3.head? ≠ some ')') :
    run (f + 1) .numbers eq0 d = some (.error .UnbalancedParentheses) := by
  simp [run, hsk, h, hc]

theorem run_mulDiv_step (f : Nat) {eq : List Char} {d : Int}
    {first : ℚ} {eq1 : List Char} {d1 : Int}
    (h : run f .numbers eq d = some (.ok (first, eq1, d1))) :
    run (f + 1) .mulDiv eq d = run f (.mulDivLoop first) eq1 d1 := by
  simp [run, h]

theorem run_mulDivLoop_stop (f : Nat) {eq rest : List Char} (first : ℚ) (d : Int)
    (hsk : skipSpaces eq = rest)
    (h1 : rest.head? ≠ some '*') (h2 : rest.head? ≠ some '/') :
    run (f + 1) (.mulDivLoop first) eq d = some (.ok (first, rest, d)) := by
  simp [run, hsk, h1, h2]

theorem run_mulDivLoop_mul (f : Nat) {eq r : List Char} (first : ℚ) (d : Int)
    {second : ℚ} {eq2 : List Char} {d2 : Int}
    (hsk : skipSpaces eq = '*' :: r)
    (h : run f .numbers r d = some (.ok (second, eq2, d2))) :
    run (f + 1) (.mulDivLoop first) eq d = run f (.mulDivLoop (first * second)) eq2 d2 := by
  simp [run, hsk, h]

theorem run_mulDivLoop_div (f : Nat) {eq r : List Char} (first : ℚ) (d : Int)
    {second : ℚ} {eq2 : List Char} {d2 : Int}
    (hsk : skipSpaces eq = '/' :: r)
    (h : run f .numbers r d = some (.ok (second, eq2, d2)))
    (hz : second ≠ 0) :
    run (f + 1) (.mulDivLoop first) eq d = run f (.mulDivLoop (first / second)) eq2 d2 := by
  simp [run, hsk, h, hz]

theorem run_mulDivLoop_div0 (f : Nat) {eq r : List Char} (first : ℚ) (d : Int)
    {second : ℚ} {eq2 : List Char} {d2 : Int}
    (hsk : skipSpaces eq = '/' :: r)
    (h : run f .numbers r d = some (.ok (second, eq2, d2)))
    (hz : second = 0) :
    run (f + 1) (.mulDivLoop first) eq d = some (.error .DivisionByZero) := by
  simp [run, hsk, h, hz]

theorem run_expr_step (f : Nat) {eq : List Char} {d : Int}
    {first : ℚ} {eq1 : List Char} {d1 : Int}
    (h : run f .mulDiv eq d = some (.ok (first, eq1, d1))) :
    run (f + 1) .expr eq d = run f (.exprLoop first) eq1 d1 := by
  simp [run, h]

theorem run_exprLoop_stop (f : Nat) {eq rest : List Char} (first : ℚ) (d : Int)
    (hsk : skipSpaces eq = rest)
    (h1 : rest.head? ≠ some '+') (h2 : rest.head? ≠ some '-') :
    run (f + 1) (.exprLoop first) eq d = some (.ok (first, rest, d)) := by
  simp [run, hsk, h1, h2]

theorem run_exprLoop_plus (f : Nat) {eq r : List Char} (first : ℚ) (d : Int)
    {second : ℚ} {eq2 : List Char} {d2 : Int}
    (hsk : skipSpaces eq = '+' :: r)
    (h : run f .mulDiv r d = some (.ok (second, eq2, d2))) :
    run (f + 1) (.exprLoop first) eq d = run f (.exprLoop (first + second)) eq2 d2 := by
  simp [run, hsk, h]

theorem run_exprLoop_minus (f : Nat) {eq r : List Char} (first : ℚ) (d : Int)
    {second : ℚ} {eq2 : List Char} {d2 : Int}
    (hsk : skipSpaces eq = '-' :: r)
    (h : run f .mulDiv r d = some (.ok (second, eq2, d2))) :
    run (f + 1) (.exprLoop first) eq d = run f (.exprLoop (first - second)) eq2 d2 := by
  simp [run, hsk, h]

theorem run_numbers_literal (f : Nat) (eq : List Char) (d : Int)
    (hsp : eq.head? ≠ some ' ') (hm : eq.head? ≠ some '-') (hp : eq.head? ≠ some '(') :
    run (f + 1) .numbers eq d =
      if (makeFloat eq).2.length = eq.length then some (.error .MalformedNumber)
      else some (.ok ((makeFloat eq).1, (makeFloat eq).2, d)) := by
  have hsk := skipSpaces_eq_self hsp
  simp only [run, hsk, if_neg hm, if_neg hp, cond_false]

theorem run_numbers_minus_literal (f : Nat) {eq0 : List Char} (d : Int) {r : List Char}
    (hsk : skipSpaces eq0 = '-' :: r) (hp : r.head? ≠ some '(')
    (hlen : (makeFloat r).2.length ≠ r.length) :
    run (f + 1) .numbers eq0 d =
      some (.ok ((makeFloat r).1 * (-1), (makeFloat r).2, d)) := by
  simp only [run, hsk, List.head?_cons, Option.some.injEq, List.tail_cons, if_true,
    cond_true]
  rw [if_neg hp, if_neg hlen]

/-! ## The parenthesis-depth invariant -/

/-- Every grammar-level call that returns successfully restores the paren
counter to its value at entry (`tokenizeNumbers` increments on `(` and
decrements after the matching `)`; no other branch touches it). -/
theorem run_depth (f : Nat) :
    ∀ (c : Call) (eq : List Char) (d : Int) (v : ℚ) (rest : List Char) (d2 : Int),
      run f c eq d = some (.ok (v, rest, d2)) → d2 = d := by
  induction f with
  | zero =>
    intro c eq d v rest d2 h
    simp [run] at h
  | succ f ih =>
    intro c eq d v rest d2 h
    cases c with
    | numbers =>
      simp only [run] at h
      split at h <;> split at h
      all_goals first
        | (split at h
           · simp at h
           · simp only [Option.some.injEq, Except.ok.injEq, Prod.mk.injEq] at h
             omega)
        | (split at h
           · exact Option.noConfusion h
           · simp at h
           · rename_i heq
             split at h
             · simp only [Option.some.injEq, Except.ok.injEq, Prod.mk.injEq] at h
               have h1 := ih _ _ _ _ _ _ heq
               omega
             · simp at h)
    | mulDiv =>
      simp only [run] at h
      split at h
      · exact Option.noConfusion h
      · simp at h
      · rename_i first eq1 d1 heq
        have h1 := ih _ _ _ _ _ _ heq
        have h2 := ih _ _ _ _ _ _ h
        omega
    | mulDivLoop first =>
      simp only [run] at h
      split at h
      · split at h
        · exact Option.noConfusion h
        · simp at h
        · rename_i second eq2 d2a heq
          have h1 := ih _ _ _ _ _ _ heq
          split at h
          · have h2 := ih _ _ _ _ _ _ h
            omega
          · split at h
            · simp at h
            · have h2 := ih _ _ _ _ _ _ h
              omega
      · simp only [Option.some.injEq, Except.ok.injEq, Prod.mk.injEq] at h
        omega
    | expr =>
      simp only [run] at h
      split at h
      · exact Option.noConfusion h
      · simp at h
      · rename_i first eq1 d1 heq
        have h1 := ih _ _ _ _ _ _ heq
        have h2 := ih _ _ _ _ _ _ h
        omega
    | exprLoop first =>
      simp only [run] at h
      split at h
      · split at h
        · exact Option.noConfusion h
        · simp at h
        · rename_i second eq2 d2a heq
          have h1 := ih _ _ _ _ _ _ heq
          split at h
          · have h2 := ih _ _ _ _ _ _ h
            omega
          · have h2 := ih _ _ _ _ _ _ h
            omega
      · simp only [Option.some.injEq, Except.ok.injEq, Prod.mk.injEq] at h
        omega

/-- When the top-level `tokenizeExpression` succeeds, the driver's final
`pCount == 0` check passes and `solve` returns its value. -/
theorem solveFuel_of_expr (f : Nat) {eq : List Char} {v : ℚ} {rest : List Char} {d2 : Int}
    (h : run f .expr eq 0 = some (.ok (v, rest, d2))) :
    solveFuel f eq = some (.ok v) := by
  have hd : d2 = 0 := run_depth f _ _ _ _ _ _ h
  subst hd
  simp [solveFuel, h]

/-! ## Sanity checks against the repository's own test vectors
(`kExpressions` / `kAnswers` in main.cpp; exact rationals instead of the
rounded floats printed by the demo driver). -/

theorem sample_mixed : evaluate "6/5-4-45+3.08" = some (.ok (-1118 / 25)) := by
  simp +decide [evaluate, solve, solveFuel, fuelBound, run, skipSpaces, makeFloat,
    makeFloatSigned, makeFloatGo, isDigit, toDigit]
  norm_num

theorem sample_nested_minus :
    evaluate "-( -(-( -(2+3*4)+2 )-1)+ 0)" = some (.ok 11) := by
  simp +decide [evaluate, solve, solveFuel, fuelBound, run, skipSpaces, makeFloat,
    makeFloatSigned, makeFloatGo, isDigit, toDigit]
  norm_num

/-! ## Symbolic execution of the two quantified arithmetic shapes -/

/-- Expression-level execution of "A + B * C" for digit strings A, B, C. -/
theorem expr_add_mul (f : Nat) (A B C : List Char) (hA : A ≠ []) (hB : B ≠ []) (hC : C ≠ [])
    (hdA : ∀ c ∈ A, isDigit c = true) (hdB : ∀ c ∈ B, isDigit c = true)
    (hdC : ∀ c ∈ C, isDigit c = true) :
    run (f + 6) .expr (A ++ (' ' :: '+' :: ' ' :: (B ++ (' ' :: '*' :: ' ' :: C)))) 0 =
      some (.ok (digitsVal A + digitsVal B * digitsVal C, [], 0)) := by
  have hrC : skipSpaces (' ' :: C) = C ++ [] := by
    rw [skipSpaces_cons_space, skipSpaces_digits_self hC hdC, List.append_nil]
  have n3 : ∀ g : Nat, run (g + 1) .numbers (' ' :: C) 0 =
      some (.ok (digitsVal C, [], 0)) :=
    fun g => run_numbers_digits g 0 hrC hC hdC rfl
  have s3 : ∀ g : Nat, run (g + 1) (.mulDivLoop (digitsVal B * digitsVal C)) [] 0 =
      some (.ok (digitsVal B * digitsVal C, [], 0)) :=
    fun g => run_mulDivLoop_stop g (digitsVal B * digitsVal C) 0 skipSpaces_nil
      (by decide) (by decide)
  have hrStar : skipSpaces (' ' :: '*' :: ' ' :: C) = '*' :: (' ' :: C) := by
    rw [skipSpaces_cons_space]
    exact skipSpaces_cons_ne _ (by decide)
  have m2o : ∀ g : Nat, run (g + 3) (.mulDivLoop (digitsVal B)) (' ' :: '*' :: ' ' :: C) 0 =
      some (.ok (digitsVal B * digitsVal C, [], 0)) := by
    intro g
    exact (run_mulDivLoop_mul (g + 2) (digitsVal B) 0 hrStar (n3 (g + 1))).trans (s3 (g + 1))
  have hrB : skipSpaces (' ' :: (B ++ (' ' :: '*' :: ' ' :: C))) =
      B ++ (' ' :: '*' :: ' ' :: C) := by
    rw [skipSpaces_cons_space]
    exact skipSpaces_digits hB hdB
  have n2 : ∀ g : Nat, run (g + 1) .numbers (' ' :: (B ++ (' ' :: '*' :: ' ' :: C))) 0 =
      some (.ok (digitsVal B, ' ' :: '*' :: ' ' :: C, 0)) :=
    fun g => run_numbers_digits g 0 hrB hB hdB rfl
  have md2 : ∀ g : Nat, run (g + 4) .mulDiv (' ' :: (B ++ (' ' :: '*' :: ' ' :: C))) 0 =
      some (.ok (digitsVal B * digitsVal C, [], 0)) := by
    intro g
    exact (run_mulDiv_step (g + 3) (n2 (g + 2))).trans (m2o g)
  have sE : ∀ g : Nat,
      run (g + 1) (.exprLoop (digitsVal A + digitsVal B * digitsVal C)) [] 0 =
      some (.ok (digitsVal A + digitsVal B * digitsVal C, [], 0)) :=
    fun g => run_exprLoop_stop g (digitsVal A + digitsVal B * digitsVal C) 0
      skipSpaces_nil (by decide) (by decide)
  have hplus : skipSpaces ('+' :: (' ' :: (B ++ (' ' :: '*' :: ' ' :: C)))) =
      '+' :: (' ' :: (B ++ (' ' :: '*' :: ' ' :: C))) :=
    skipSpaces_cons_ne _ (by decide)
  have eL : ∀ g : Nat, run (g + 5) (.exprLoop (digitsVal A))
      ('+' :: (' ' :: (B ++ (' ' :: '*' :: ' ' :: C)))) 0 =
      some (.ok (digitsVal A + digitsVal B * digitsVal C, [], 0)) := by
    intro g
    exact (run_exprLoop_plus (g + 4) (digitsVal A) 0 hplus (md2 g)).trans (sE (g + 3))
  have hrA : skipSpaces (A ++ (' ' :: '+' :: ' ' :: (B ++ (' ' :: '*' :: ' ' :: C)))) =
      A ++ (' ' :: '+' :: ' ' :: (B ++ (' ' :: '*' :: ' ' :: C))) :=
    skipSpaces_digits hA hdA
  have n1 : ∀ g : Nat, run (g + 1) .numbers
      (A ++ (' ' :: '+' :: ' ' :: (B ++ (' ' :: '*' :: ' ' :: C)))) 0 =
      some (.ok (digitsVal A, ' ' :: '+' :: ' ' :: (B ++ (' ' :: '*' :: ' ' :: C)), 0)) :=
    fun g => run_numbers_digits g 0 hrA hA hdA rfl
  have s1 : ∀ g : Nat, run (g + 1) (.mulDivLoop (digitsVal A))
      (' ' :: '+' :: ' ' :: (B ++ (' ' :: '*' :: ' ' :: C))) 0 =
      some (.ok (digitsVal A, '+' :: (' ' :: (B ++ (' ' :: '*' :: ' ' :: C))), 0)) := by
    intro g
    have hsk : skipSpaces (' ' :: '+' :: ' ' :: (B ++ (' ' :: '*' :: ' ' :: C))) =
        '+' :: (' ' :: (B ++ (' ' :: '*' :: ' ' :: C))) := by
      rw [skipSpaces_cons_space]
      exact skipSpaces_cons_ne _ (by decide)
    exact run_mulDivLoop_stop g (digitsVal A) 0 hsk (by simp +decide) (by simp +decide)
  have md1 : ∀ g : Nat, run (g + 5) .mulDiv
      (A ++ (' ' :: '+' :: ' ' :: (B ++ (' ' :: '*' :: ' ' :: C)))) 0 =
      some (.ok (digitsVal A, '+' :: (' ' :: (B ++ (' ' :: '*' :: ' ' :: C))), 0)) := by
    intro g
    exact (run_mulDiv_step (g + 4) (n1 (g + 3))).trans (s1 (g + 3))
  exact (run_expr_step (f + 5) (md1 f)).trans (eL f)

/-- Expression-level execution of "A - B - C" for digit strings A, B, C:
the running accumulator folds left, giving (A - B) - C. -/
theorem expr_sub_sub (f : Nat) (A B C : List Char) (hA : A ≠ []) (hB : B ≠ []) (hC : C ≠ [])
    (hdA : ∀ c ∈ A, isDigit c = true) (hdB : ∀ c ∈ B, isDigit c = true)
    (hdC : ∀ c ∈ C, isDigit c = true) :
    run (f + 8) .expr (A ++ (' ' :: '-' :: ' ' :: (B ++ (' ' :: '-' :: ' ' :: C)))) 0 =
      some (.ok (digitsVal A - digitsVal B - digitsVal C, [], 0)) := by
  have hrC : skipSpaces (' ' :: C) = C ++ [] := by
    rw [skipSpaces_cons_space, skipSpaces_digits_self hC hdC, List.append_nil]
  have nC : ∀ g : Nat, run (g + 1) .numbers (' ' :: C) 0 =
      some (.ok (digitsVal C, [], 0)) :=
    fun g => run_numbers_digits g 0 hrC hC hdC rfl
  have sC : ∀ g : Nat, run (g + 1) (.mulDivLoop (digitsVal C)) [] 0 =
      some (.ok (digitsVal C, [], 0)) :=
    fun g => run_mulDivLoop_stop g (digitsVal C) 0 skipSpaces_nil (by decide) (by decide)
  have mdC : ∀ g : Nat, run (g + 2) .mulDiv (' ' :: C) 0 =
      some (.ok (digitsVal C, [], 0)) := by
    intro g
    exact (run_mulDiv_step (g + 1) (nC g)).trans (sC g)
  have sE2 : ∀ g : Nat,
      run (g + 1) (.exprLoop (digitsVal A - digitsVal B - digitsVal C)) [] 0 =
      some (.ok (digitsVal A - digitsVal B - digitsVal C, [], 0)) :=
    fun g => run_exprLoop_stop g (digitsVal A - digitsVal B - digitsVal C) 0
      skipSpaces_nil (by decide) (by decide)
  have hminus2 : skipSpaces ('-' :: (' ' :: C)) = '-' :: (' ' :: C) :=
    skipSpaces_cons_ne _ (by decide)
  have eL2 : ∀ g : Nat, run (g + 3) (.exprLoop (digitsVal A - digitsVal B))
      ('-' :: (' ' :: C)) 0 =
      some (.ok (digitsVal A - digitsVal B - digitsVal C, [], 0)) := by
    intro g
    exact (run_exprLoop_minus (g + 2) (digitsVal A - digitsVal B) 0 hminus2
      (mdC g)).trans (sE2 (g + 1))
  have hrB : skipSpaces (' ' :: (B ++ (' ' :: '-' :: ' ' :: C))) =
      B ++ (' ' :: '-' :: ' ' :: C) := by
    rw [skipSpaces_cons_space]
    exact skipSpaces_digits hB hdB
  have nB : ∀ g : Nat, run (g + 1) .numbers (' ' :: (B ++ (' ' :: '-' :: ' ' :: C))) 0 =
      some (.ok (digitsVal B, ' ' :: '-' :: ' ' :: C, 0)) :=
    fun g => run_numbers_digits g 0 hrB hB hdB rfl
  have sB : ∀ g : Nat, run (g + 1) (.mulDivLoop (digitsVal B))
      (' ' :: '-' :: ' ' :: C) 0 =
      some (.ok (digitsVal B, '-' :: (' ' :: C), 0)) := by
    intro g
    have hsk : skipSpaces (' ' :: '-' :: ' ' :: C) = '-' :: (' ' :: C) := by
      rw [skipSpaces_cons_space]
      exact skipSpaces_cons_ne _ (by decide)
    exact run_mulDivLoop_stop g (digitsVal B) 0 hsk (by simp +decide) (by simp +decide)
  have mdB : ∀ g : Nat, run (g + 2) .mulDiv (' ' :: (B ++ (' ' :: '-' :: ' ' :: C))) 0 =
      some (.ok (digitsVal B, '-' :: (' ' :: C), 0)) := by
    intro g
    exact (run_mulDiv_step (g + 1) (nB g)).trans (sB g)
  have eL1 : ∀ g : Nat, run (g + 5) (.exprLoop (digitsVal A))
      ('-' :: (' ' :: (B ++ (' ' :: '-' :: ' ' :: C)))) 0 =
      some (.ok (digitsVal A - digitsVal B - digitsVal C, [], 0)) := by
    intro g
    have hsk : skipSpaces ('-' :: (' ' :: (B ++ (' ' :: '-' :: ' ' :: C)))) =
        '-' :: (' ' :: (B ++ (' ' :: '-' :: ' ' :: C))) :=
      skipSpaces_cons_ne _ (by decide)
    exact (run_exprLoop_minus (g + 4) (digitsVal A) 0 hsk (mdB (g + 2))).trans (eL2 (g + 1))
  have hrA : skipSpaces (A ++ (' ' :: '-' :: ' ' :: (B ++ (' ' :: '-' :: ' ' :: C)))) =
      A ++ (' ' :: '-' :: ' ' :: (B ++ (' ' :: '-' :: ' ' :: C))) :=
    skipSpaces_digits hA hdA
  have nA : ∀ g : Nat, run (g + 1) .numbers
      (A ++ (' ' :: '-' :: ' ' :: (B ++ (' ' :: '-' :: ' ' :: C)))) 0 =
      some (.ok (digitsVal A, ' ' :: '-' :: ' ' :: (B ++ (' ' :: '-' :: ' ' :: C)), 0)) :=
    fun g => run_numbers_digits g 0 hrA hA hdA rfl
  have sA : ∀ g : Nat, run (g + 1) (.mulDivLoop (digitsVal A))
      (' ' :: '-' :: ' ' :: (B ++ (' ' :: '-' :: ' ' :: C))) 0 =
      some (.ok (digitsVal A, '-' :: (' ' :: (B ++ (' ' :: '-' :: ' ' :: C))), 0)) := by
    intro g
    have hsk : skipSpaces (' ' :: '-' :: ' ' :: (B ++ (' ' :: '-' :: ' ' :: C))) =
        '-' :: (' ' :: (B ++ (' ' :: '-' :: ' ' :: C))) := by
      rw [skipSpaces_cons_space]
      exact skipSpaces_cons_ne _ (by decide)
    exact run_mulDivLoop_stop g (digitsVal A) 0 hsk (by simp +decide) (by simp +decide)
  have mdA : ∀ g : Nat, run (g + 2) .mulDiv
      (A ++ (' ' :: '-' :: ' ' :: (B ++ (' ' :: '-' :: ' ' :: C)))) 0 =
      some (.ok (digitsVal A, '-' :: (' ' :: (B ++ (' ' :: '-' :: ' ' :: C))), 0)) := by
    intro g
    exact (run_mulDiv_step (g + 1) (nA g)).trans (sA g)
  exact (run_expr_step (f + 7) (mdA (f + 5))).trans (eL1 (f + 2))

/-! ## The claims -/

/-- C1: multiplication binds tighter than addition: for digit literals a, b, c
"solve" on "a + b * c" returns a + (b * c); whenever a + (b * c) differs from
(a + b) * c the result is therefore not (a + b) * c. -/
theorem precedence_spec (A B C : List Char) (hA : A ≠ []) (hB : B ≠ []) (hC : C ≠ [])
    (hdA : ∀ c ∈ A, isDigit c = true) (hdB : ∀ c ∈ B, isDigit c = true)
    (hdC : ∀ c ∈ C, isDigit c = true) :
    solve (A ++ (' ' :: '+' :: ' ' :: (B ++ (' ' :: '*' :: ' ' :: C)))) =
      some (.ok (digitsVal A + digitsVal B * digitsVal C)) ∧
    (digitsVal A + digitsVal B * digitsVal C ≠ (digitsVal A + digitsVal B) * digitsVal C →
      solve (A ++ (' ' :: '+' :: ' ' :: (B ++ (' ' :: '*' :: ' ' :: C)))) ≠
        some (.ok ((digitsVal A + digitsVal B) * digitsVal C))) := by
  have hsolve : solve (A ++ (' ' :: '+' :: ' ' :: (B ++ (' ' :: '*' :: ' ' :: C)))) =
      some (.ok (digitsVal A + digitsVal B * digitsVal C)) := by
    obtain ⟨g, hg⟩ : ∃ g,
        fuelBound (A ++ (' ' :: '+' :: ' ' :: (B ++ (' ' :: '*' :: ' ' :: C)))) = g + 6 :=
      ⟨4 * (A ++ (' ' :: '+' :: ' ' :: (B ++ (' ' :: '*' :: ' ' :: C)))).length + 10,
        by simp [fuelBound]⟩
    show solveFuel _ _ = _
    rw [hg]
    exact solveFuel_of_expr (g + 6) (expr_add_mul g A B C hA hB hC hdA hdB hdC)
  refine ⟨hsolve, fun hne hcontra => hne ?_⟩
  rw [hsolve] at hcontra
  simpa using hcontra

theorem precedence_spec_witness :
    solve ('2' :: ' ' :: '+' :: ' ' :: '3' :: ' ' :: '*' :: ' ' :: '4' :: []) =
      some (.ok 14) := by
  have h := (precedence_spec ('2' :: []) ('3' :: []) ('4' :: []) (by decide) (by decide)
    (by decide) (by decide) (by decide) (by decide)).1
  have he : (('2' :: []) ++
      (' ' :: '+' :: ' ' :: (('3' :: []) ++ (' ' :: '*' :: ' ' :: ('4' :: []))))) =
      ('2' :: ' ' :: '+' :: ' ' :: '3' :: ' ' :: '*' :: ' ' :: '4' :: []) := rfl
  rw [he] at h
  have hv : digitsVal ('2' :: []) + digitsVal ('3' :: []) * digitsVal ('4' :: []) = 14 := by
    simp +decide [digitsVal, digitsValFrom, toDigit]
    norm_num
  rw [hv] at h
  exact h

/-- C2: all binary levels fold left to right: for digit literals a, b, c
"solve" on "a - b - c" returns (a - b) - c, the left-associated value. -/
theorem leftAssoc_spec (A B C : List Char) (hA : A ≠ []) (hB : B ≠ []) (hC : C ≠ [])
    (hdA : ∀ c ∈ A, isDigit c = true) (hdB : ∀ c ∈ B, isDigit c = true)
    (hdC : ∀ c ∈ C, isDigit c = true) :
    solve (A ++ (' ' :: '-' :: ' ' :: (B ++ (' ' :: '-' :: ' ' :: C)))) =
      some (.ok (digitsVal A - digitsVal B - digitsVal C)) := by
  obtain ⟨g, hg⟩ : ∃ g,
      fuelBound (A ++ (' ' :: '-' :: ' ' :: (B ++ (' ' :: '-' :: ' ' :: C)))) = g + 8 :=
    ⟨4 * (A ++ (' ' :: '-' :: ' ' :: (B ++ (' ' :: '-' :: ' ' :: C)))).length + 8,
      by simp [fuelBound]⟩
  show solveFuel _ _ = _
  rw [hg]
  exact solveFuel_of_expr (g + 8) (expr_sub_sub g A B C hA hB hC hdA hdB hdC)

theorem leftAssoc_spec_witness :
    solve ('9' :: ' ' :: '-' :: ' ' :: '4' :: ' ' :: '-' :: ' ' :: '3' :: []) =
      some (.ok 2) := by
  have h := leftAssoc_spec ('9' :: []) ('4' :: []) ('3' :: []) (by decide) (by decide)
    (by decide) (by decide) (by decide) (by decide)
  have he : (('9' :: []) ++
      (' ' :: '-' :: ' ' :: (('4' :: []) ++ (' ' :: '-' :: ' ' :: ('3' :: []))))) =
      ('9' :: ' ' :: '-' :: ' ' :: '4' :: ' ' :: '-' :: ' ' :: '3' :: []) := rfl
  rw [he] at h
  have hv : digitsVal ('9' :: []) - digitsVal ('4' :: []) - digitsVal ('3' :: []) = 2 := by
    simp +decide [digitsVal, digitsValFrom, toDigit]
    norm_num
  rw [hv] at h
  exact h

/-- C3: whenever the right operand of `/` evaluates to exactly zero the Term
loop fails with DivisionByZero — in particular `evaluate "1/0"` does — and a
division whose right operand is non-zero does not fail at that step: the
quotient is folded into the accumulator and the loop continues. -/
theorem divisionByZero_spec :
    evaluate "1/0" = some (.error .DivisionByZero) ∧
    ∀ (f : Nat) (first : ℚ) (eq r : List Char) (d : Int) (second : ℚ)
      (eq2 : List Char) (d2 : Int),
      skipSpaces eq = '/' :: r →
      tokenizeNumbers f r d = some (.ok (second, eq2, d2)) →
      (second = 0 →
        run (f + 1) (.mulDivLoop first) eq d = some (.error .DivisionByZero)) ∧
      (second ≠ 0 →
        run (f + 1) (.mulDivLoop first) eq d =
          run f (.mulDivLoop (first / second)) eq2 d2) := by
  refine ⟨?_, ?_⟩
  · simp +decide [evaluate, solve, solveFuel, fuelBound, run, skipSpaces, makeFloat,
      makeFloatSigned, makeFloatGo, isDigit, toDigit]
  · intro f first eq r d second eq2 d2 hsk h
    exact ⟨fun hz => run_mulDivLoop_div0 f first d hsk h hz,
           fun hz => run_mulDivLoop_div f first d hsk h hz⟩

theorem divisionByZero_spec_witness :
    run 2 (Call.mulDivLoop 1) ('/' :: '0' :: []) 0 = some (.error .DivisionByZero) ∧
    run 2 (Call.mulDivLoop 1) ('/' :: '2' :: []) 0 =
      run 1 (Call.mulDivLoop (1 / 2)) [] 0 := by
  have h0 : tokenizeNumbers 1 ('0' :: []) 0 = some (.ok (0, [], 0)) := by
    simp +decide [tokenizeNumbers, run, skipSpaces, makeFloat, makeFloatSigned,
      makeFloatGo, isDigit, toDigit]
  have h2 : tokenizeNumbers 1 ('2' :: []) 0 = some (.ok (2, [], 0)) := by
    simp +decide [tokenizeNumbers, run, skipSpaces, makeFloat, makeFloatSigned,
      makeFloatGo, isDigit, toDigit]
  constructor
  · exact (divisionByZero_spec.2 1 1 ('/' :: '0' :: []) ('0' :: []) 0 0 [] 0 rfl h0).1 rfl
  · exact (divisionByZero_spec.2 1 1 ('/' :: '2' :: []) ('2' :: []) 0 2 [] 0 rfl h2).2
      (by norm_num)

/-- C4 counterexample: `evaluate "(1+"` is an input whose opening parenthesis
is never closed, yet evaluation fails with MalformedNumber (the parenthesized
sub-expression fails first), not UnbalancedParentheses. -/
theorem unbalancedOpen_counterexample :
    evaluate "(1+" = some (.error .MalformedNumber) ∧
    (CalcError.MalformedNumber != CalcError.UnbalancedParentheses) = true := by
  refine ⟨?_, rfl⟩
  simp +decide [evaluate, solve, solveFuel, fuelBound, run, skipSpaces, makeFloat,
    makeFloatSigned, makeFloatGo, isDigit, toDigit]

/-- C4 (amended): `evaluate "(1+2"` fails with UnbalancedParentheses, and in
general whenever the parenthesized sub-expression evaluates successfully but
the next character is not `)`, Factor fails with UnbalancedParentheses.  (When
the sub-expression itself fails, that other error is reported instead.) -/
theorem unbalancedOpen_spec :
    evaluate "(1+2" = some (.error .UnbalancedParentheses) ∧
    ∀ (f : Nat) (eq r : List Char) (d : Int) (v : ℚ) (eq3 : List Char) (d3 : Int),
      skipSpaces eq = '(' :: r →
      tokenizeExpression f r (d + 1) = some (.ok (v, eq3, d3)) →
      eq3.head? ≠ some ')' →
      tokenizeNumbers (f + 1) eq d = some (.error .UnbalancedParentheses) := by
  refine ⟨?_, ?_⟩
  · simp +decide [evaluate, solve, solveFuel, fuelBound, run, skipSpaces, makeFloat,
      makeFloatSigned, makeFloatGo, isDigit, toDigit]
  · intro f eq r d v eq3 d3 hsk h hc
    exact run_numbers_paren_noclose f d hsk h hc

theorem unbalancedOpen_spec_witness :
    tokenizeNumbers 5 ('(' :: '1' :: []) 0 = some (.error .UnbalancedParentheses) := by
  have h : tokenizeExpression 4 ('1' :: []) (0 + 1) = some (.ok (1, [], 0 + 1)) := by
    simp +decide [tokenizeExpression, run, skipSpaces, makeFloat, makeFloatSigned,
      makeFloatGo, isDigit, toDigit]
  exact unbalancedOpen_spec.2 4 ('(' :: '1' :: []) ('1' :: []) 0 1 [] (0 + 1) rfl h
    (by decide)

/-- C5 counterexample: `evaluate "1+2)"` does not fail — it succeeds, so the
claim that it fails is false. -/
theorem trailingParen_counterexample :
    isSuccess (evaluate "1+2)") = true := by
  have h : evaluate "1+2)" = some (.ok 3) := by
    simp +decide [evaluate, solve, solveFuel, fuelBound, run, skipSpaces, makeFloat,
      makeFloatSigned, makeFloatGo, isDigit, toDigit]
    norm_num
  rw [h]
  rfl

/-- C5 (amended): a closing parenthesis encountered where none was opened
merely terminates the top-level Expression loop and is silently ignored as
trailing input: `evaluate "1+2)"` succeeds with value 3. -/
theorem trailingParen_spec : evaluate "1+2)" = some (.ok 3) := by
  simp +decide [evaluate, solve, solveFuel, fuelBound, run, skipSpaces, makeFloat,
    makeFloatSigned, makeFloatGo, isDigit, toDigit]
  norm_num

/-- C6: when the top-level Expression succeeds while the cursor has not
reached end-of-input, `solve` reports no error: the unconsumed suffix is
silently ignored and the value of the consumed prefix is returned. -/
theorem trailingInput_ignored :
    ∀ (eq : List Char) (v : ℚ) (rest : List Char) (d2 : Int),
      rest ≠ [] →
      tokenizeExpression (fuelBound eq) eq 0 = some (.ok (v, rest, d2)) →
      solve eq = some (.ok v) := by
  intro eq v rest d2 _ h
  exact solveFuel_of_expr _ h

theorem trailingInput_ignored_witness :
    solve ('1' :: '+' :: '2' :: ')' :: []) = some (.ok 3) := by
  have h : tokenizeExpression (fuelBound ('1' :: '+' :: '2' :: ')' :: []))
      ('1' :: '+' :: '2' :: ')' :: []) 0 = some (.ok (3, ')' :: [], 0)) := by
    simp +decide [tokenizeExpression, fuelBound, run, skipSpaces, makeFloat,
      makeFloatSigned, makeFloatGo, isDigit, toDigit]
    norm_num
  exact trailingInput_ignored ('1' :: '+' :: '2' :: ')' :: []) 3 (')' :: []) 0
    (by decide) h

/-- C7 counterexample: on input "." the number parser consumes the decimal
point (no digit is consumable anywhere in the input) and successfully
returns the value 0 instead of failing with MalformedNumber. -/
theorem malformedNumber_counterexample :
    makeFloat ('.' :: []) = (0, []) ∧
    tokenizeNumbers 2 ('.' :: []) 0 = some (.ok (0, [], 0)) ∧
    List.all ('.' :: []) (fun c => !(isDigit c)) = true := by
  refine ⟨?_, ?_, rfl⟩
  · simp +decide [makeFloat, makeFloatSigned, makeFloatGo, isDigit]
  · simp +decide [tokenizeNumbers, run, skipSpaces, makeFloat, makeFloatSigned,
      makeFloatGo, isDigit]

/-- C7 (amended): at a position where Factor delegates to the number parser
(next character not a space, unary minus already consumed, not `(`), the
parse fails with MalformedNumber exactly when zero characters are consumable
there — the next character is neither a digit nor `.` nor `-`.  It can,
however, succeed without consuming any digit (e.g. on "."). -/
theorem malformedNumber_spec (f : Nat) (eq : List Char) (d : Int)
    (hsp : eq.head? ≠ some ' ') (hm : eq.head? ≠ some '-') (hp : eq.head? ≠ some '(') :
    tokenizeNumbers (f + 1) eq d = some (.error .MalformedNumber) ↔
      canStartNumber eq = false := by
  have hrun := run_numbers_literal f eq d hsp hm hp
  constructor
  · intro herr
    cases hq : canStartNumber eq with
    | false => rfl
    | true =>
      have hlt := makeFloat_consumes hq
      simp only [tokenizeNumbers] at herr
      rw [hrun, if_neg (by omega)] at herr
      exact absurd herr (by simp)
  · intro hcs
    have hst := makeFloat_stuck hcs
    simp only [tokenizeNumbers]
    rw [hrun, if_pos (by rw [hst])]

theorem malformedNumber_spec_witness :
    tokenizeNumbers 1 ('a' :: []) 0 = some (.error .MalformedNumber) := by
  refine (malformedNumber_spec 0 ('a' :: []) 0 ?_ ?_ ?_).mpr ?_
  · decide
  · decide
  · decide
  · decide

/-- C8: when the number scanner meets a second decimal point while already in
the fractional part, it stops immediately at that point without signaling an
error: the value accumulated so far is returned and the cursor is left at
the second decimal point. -/
theorem secondDecimalPoint_spec (ds1 ds2 rest : List Char)
    (h1 : ∀ c ∈ ds1, isDigit c = true) (h2 : ∀ c ∈ ds2, isDigit c = true) :
    makeFloat (ds1 ++ ('.' :: (ds2 ++ ('.' :: rest)))) =
      (digitsVal ds1 + digitsVal ds2 / (10 : ℚ) ^ ds2.length, '.' :: rest) :=
  makeFloat_two_dots rest h1 h2

theorem secondDecimalPoint_spec_witness :
    makeFloat ('1' :: '2' :: '.' :: '3' :: '.' :: '5' :: []) =
      (123 / 10, '.' :: '5' :: []) := by
  have h := secondDecimalPoint_spec ('1' :: '2' :: []) ('3' :: []) ('5' :: [])
    (by decide) (by decide)
  have he : (('1' :: '2' :: []) ++ ('.' :: (('3' :: []) ++ ('.' :: ('5' :: []))))) =
      ('1' :: '2' :: '.' :: '3' :: '.' :: '5' :: []) := rfl
  rw [he] at h
  rw [h]
  have hv : digitsVal ('1' :: '2' :: []) +
      digitsVal ('3' :: []) / (10 : ℚ) ^ ('3' :: []).length = 123 / 10 := by
    simp +decide [digitsVal, digitsValFrom, toDigit]
    norm_num
  rw [hv]

/-- C9: every grammar-level call that returns successfully leaves ParenDepth
equal to its value at entry (Factor increments on `(` and decrements after
the matching `)`), so a successful top-level parse always ends with depth
zero and the driver's final zero-check never fails on a successful parse. -/
theorem parenDepth_invariant :
    (∀ (f : Nat) (c : Call) (eq : List Char) (d : Int) (v : ℚ)
      (rest : List Char) (d2 : Int),
      run f c eq d = some (.ok (v, rest, d2)) → d2 = d) ∧
    (∀ (f : Nat) (eq : List Char) (v : ℚ) (rest : List Char) (d2 : Int),
      tokenizeExpression f eq 0 = some (.ok (v, rest, d2)) →
      solveFuel f eq = some (.ok v)) :=
  ⟨fun f c eq d v rest d2 h => run_depth f c eq d v rest d2 h,
   fun f _ _ _ _ h => solveFuel_of_expr f h⟩

theorem parenDepth_invariant_witness :
    tokenizeExpression 10 ('(' :: '1' :: ')' :: []) 0 = some (.ok (1, [], 0)) ∧
    solveFuel 10 ('(' :: '1' :: ')' :: []) = some (.ok 1) := by
  have h : tokenizeExpression 10 ('(' :: '1' :: ')' :: []) 0 = some (.ok (1, [], 0)) := by
    simp +decide [tokenizeExpression, run, skipSpaces, makeFloat, makeFloatSigned,
      makeFloatGo, isDigit, toDigit]
  exact ⟨h, parenDepth_invariant.2 10 ('(' :: '1' :: ')' :: []) 1 [] 0 h⟩

/-- C10: two leading minus signs cancel instead of being rejected: Factor
consumes the first as its unary sign flag, the number scanner consumes the
second as the literal's sign, and the result is the plain (non-negative)
value of the digit string. -/
theorem doubleMinus_spec (ds : List Char) (_hne : ds ≠ [])
    (h : ∀ c ∈ ds, isDigit c = true) :
    solve ('-' :: '-' :: ds) = some (.ok (digitsVal ds)) ∧ 0 ≤ digitsVal ds := by
  have hgo : makeFloatGo ds 0 0 1 false = (digitsValFrom 0 ds, 0, 1, []) := by
    have h1 := makeFloatGo_digits ds h [] 0 0 1
    rw [List.append_nil] at h1
    rw [h1]
    rfl
  have hmf : makeFloat ('-' :: ds) = (-(digitsVal ds), []) := by
    have h0 : makeFloat ('-' :: ds) = makeFloatSigned (-1) ds := rfl
    rw [h0, makeFloatSigned_eq, hgo]
    simp [digitsVal]
  have hnum : ∀ (f : Nat) (d : Int),
      run (f + 1) .numbers ('-' :: '-' :: ds) d = some (.ok (digitsVal ds, [], d)) := by
    intro f d
    have hsk : skipSpaces ('-' :: '-' :: ds) = '-' :: ('-' :: ds) :=
      skipSpaces_cons_ne _ (by decide)
    have hp : ('-' :: ds).head? ≠ some '(' := by simp +decide
    have hlen : (makeFloat ('-' :: ds)).2.length ≠ ('-' :: ds).length := by
      rw [hmf]
      simp
    have hstep := run_numbers_minus_literal f d hsk hp hlen
    rw [hstep, hmf]
    simp
  have hmd : ∀ f : Nat, run (f + 2) .mulDiv ('-' :: '-' :: ds) 0 =
      some (.ok (digitsVal ds, [], 0)) := by
    intro f
    refine (run_mulDiv_step (f + 1) (hnum f 0)).trans ?_
    exact run_mulDivLoop_stop f (digitsVal ds) 0 skipSpaces_nil (by decide) (by decide)
  have hexpr : ∀ f : Nat, run (f + 3) .expr ('-' :: '-' :: ds) 0 =
      some (.ok (digitsVal ds, [], 0)) := by
    intro f
    refine (run_expr_step (f + 2) (hmd f)).trans ?_
    exact run_exprLoop_stop (f + 1) (digitsVal ds) 0 skipSpaces_nil (by decide) (by decide)
  constructor
  · obtain ⟨g, hg⟩ : ∃ g, fuelBound ('-' :: '-' :: ds) = g + 3 :=
      ⟨4 * ('-' :: '-' :: ds).length + 13, by simp [fuelBound]⟩
    show solveFuel (fuelBound ('-' :: '-' :: ds)) ('-' :: '-' :: ds) = _
    rw [hg]
    exact solveFuel_of_expr (g + 3) (hexpr g)
  · exact digitsValFrom_nonneg h le_rfl

theorem doubleMinus_spec_witness :
    solve ('-' :: '-' :: '5' :: []) = some (.ok 5) := by
  have h := (doubleMinus_spec ('5' :: []) (by decide) (by decide)).1
  have hv : digitsVal ('5' :: []) = 5 := by
    simp +decide [digitsVal, digitsValFrom, toDigit]
    norm_num
  rw [hv] at h
  exact h

end Calculator
